import Mathlib

/-!
Verification of the organisation usage/billing task module
(`organisations/tasks.py`): a shallow embedding of its decision logic,
followed by theorems about the embedded definitions.

Modelling conventions:
* Timestamps are `Int` (an abstract totally ordered clock); the Django
  lookups `__gt`/`__gte` become `<`/`≤` on these.
* Machine integers are `Nat`; the Python expressions involved only produce
  non-negative values on the paths modelled (subtractions that can go
  negative are guarded exactly as in the source).
* Python's `ZeroDivisionError` (and exceptions generally) are embedded with
  `Except PyError`; side effects (mail sends, billing API calls) are
  returned as explicit values.
* Calendar dates for the paid-plan period resolution are modelled by
  `SimpleDate` (absolute month index plus day-of-month, days ≤ 28 so that
  month addition needs no clamping), mirroring `dateutil.relativedelta`.
-/

namespace OrgTasks

/-- Exceptions that the Python code can raise on the modelled paths. -/
inductive PyError where
  | zeroDivision
  | runtimeError
  | otherError
deriving DecidableEq

/-- `api_usage_percent = int(100 * api_usage / allowed_api_calls)` (tasks.py
line 183).  Division by zero raises in Python, hence `none` when
`allowed = 0`; otherwise the truncated integer percentage. -/
def apiUsagePercent (usage allowed : Nat) : Option Nat :=
  if allowed = 0 then none else some (100 * usage / allowed)

/-- The threshold-matching loop of tasks.py lines 185-190:
`for threshold in thresholds: if threshold > percent: break;
matched = threshold`, with `acc` the current value of `matched_threshold`. -/
def matchLoop (percent : Nat) : List Nat → Option Nat → Option Nat
  | [], acc => acc
  | t :: ts, acc => if percent < t then acc else matchLoop percent ts (some t)

/-- `matched_threshold` as computed by tasks.py lines 185-190, starting from
`matched_threshold = None`. -/
def matchedThreshold (thresholds : List Nat) (percent : Nat) : Option Nat :=
  matchLoop percent thresholds none

/-- One `OrganisationAPIUsageNotification` row (organisation id,
`percent_usage`, `notified_at`). -/
structure NotifRow where
  org : Nat
  percent : Nat
  notifiedAt : Int
deriving DecidableEq

/-- The already-notified filter of tasks.py lines 196-199:
`filter(notified_at__gt=period_starts_at, percent_usage__gte=matched_threshold)
.exists()`.  Note that the filter has no organisation clause. -/
def alreadyNotified (rows : List NotifRow) (periodStartsAt : Int)
    (matched : Nat) : Bool :=
  rows.any fun r =>
    decide (periodStartsAt < r.notifiedAt) && decide (matched ≤ r.percent)

/-- The mail produced by `send_api_usage_notification`; `adminsOnly` records
the recipient restriction applied when the threshold is below 100. -/
structure SentMail where
  org : Nat
  threshold : Nat
  adminsOnly : Bool
deriving DecidableEq

/-- `send_api_usage_notification` (tasks.py lines 108-152): sends one mail
(admins only below 100%) and appends one
`OrganisationAPIUsageNotification` row with `notified_at = now`. -/
def sendApiUsageNotification (org matched : Nat) (now : Int)
    (rows : List NotifRow) : SentMail × List NotifRow :=
  (⟨org, matched, decide (matched < 100)⟩, rows ++ [⟨org, matched, now⟩])

/-- Core of `_handle_api_usage_notifications` (tasks.py lines 183-203), after
the usage period has been resolved to `(periodStartsAt, allowed)` and the
external usage query returned `usage`: compute the usage percent (raising on
a zero limit), match a threshold, skip when no threshold matched or a
covering notification already exists, otherwise send and record. -/
def handleUsageCore (org : Nat) (thresholds : List Nat)
    (periodStartsAt now : Int) (usage allowed : Nat)
    (rows : List NotifRow) : Except PyError (Option SentMail × List NotifRow) :=
  match apiUsagePercent usage allowed with
  | none => .error .zeroDivision
  | some percent =>
    match matchedThreshold thresholds percent with
    | none => .ok (none, rows)
    | some matched =>
      if alreadyNotified rows periodStartsAt matched then .ok (none, rows)
      else
        let sent := sendApiUsageNotification org matched now rows
        .ok (some sent.1, sent.2)

/-- A calendar date as an absolute month index (`year * 12 + month - 1`) and
a day of month.  Days are kept ≤ 28 so adding months never clamps. -/
structure SimpleDate where
  mIdx : Nat
  day : Nat
deriving DecidableEq

/-- Whole months elapsed from `b` to `a` (for `b ≤ a`), as
`dateutil.relativedelta(a, b)` normalises them: the month-index difference,
minus one when the day of month has not yet been reached. -/
def totalMonthsBetween (a b : SimpleDate) : Nat :=
  if a.day < b.day then a.mIdx - b.mIdx - 1 else a.mIdx - b.mIdx

/-- The `.months` field of `relativedelta(a, b)`: whole years are carried
into `.years`, so `.months` is the whole-month difference modulo 12.  This
is what tasks.py line 175 reads. -/
def relativedeltaMonthsField (a b : SimpleDate) : Nat :=
  totalMonthsBetween a b % 12

/-- `relativedelta(months=m) + d`: advance a date by `m` months (no day
clamping needed for days ≤ 28). -/
def addMonths (d : SimpleDate) (m : Nat) : SimpleDate :=
  ⟨d.mIdx + m, d.day⟩

/-- `period_starts_at` for a paid organisation (tasks.py lines 174-176):
`month_delta = relativedelta(now, billing_starts_at).months;
period_starts_at = relativedelta(months=month_delta) + billing_starts_at`.
The code comment says this truncates to the closest active month. -/
def periodStartsAtPaid (now billingStartsAt : SimpleDate) : SimpleDate :=
  addMonths billingStartsAt (relativedeltaMonthsField now billingStartsAt)

/-- One `OrganisationAPIBilling` row (organisation id, `api_overage`,
`billed_at`). -/
structure BillRow where
  org : Nat
  apiOverage : Nat
  billedAt : Int
deriving DecidableEq

/-- `previous_api_overage` (tasks.py lines 298-301): the sum of
`api_overage` over all rows with `billed_at__gte` the billing-term start.
Note that the filter has no organisation clause. -/
def prevApiOverage (rows : List BillRow) (termStartsAt : Int) : Nat :=
  ((rows.filter fun r => decide (termStartsAt ≤ r.billedAt)).map
    (·.apiOverage)).sum

/-- Subscription plans distinguished by the overage biller. -/
inductive Plan where
  | scaleUp
  | startUp
  | otherPaid
deriving DecidableEq

/-- An external billing API call: which chargebee mutation was invoked and
with how many 100,000-call units. -/
structure BillCall where
  plan : Plan
  units : Nat
deriving DecidableEq

/-- `n` rounded up to the next multiple of 100,000, the amount recorded by
tasks.py line 329 (`100_000 * math.ceil(api_overage / 100_000)`). -/
def roundUp100k (n : Nat) : Nat :=
  100000 * ((n + 99999) / 100000)

/-- Per-organisation core of `charge_for_api_call_count_overages` (tasks.py
lines 290-332), after the feature gate: the 200% grace check (raising on a
zero limit), the previous-overage sum, the overage test, the plan dispatch,
and the appended `OrganisationAPIBilling` row.  Returns the billing call
made (if any) and the updated billing table. -/
def chargeCore (org : Nat) (plan : Plan) (usage allowed : Nat)
    (termStartsAt now : Int) (rows : List BillRow) :
    Except PyError (Option BillCall × List BillRow) :=
  if allowed = 0 then .error .zeroDivision
  else if usage < 2 * allowed then .ok (none, rows)
  else
    let apiLimit := allowed + prevApiOverage rows termStartsAt
    if usage ≤ apiLimit then .ok (none, rows)
    else
      let overage := usage - apiLimit
      let units := (overage + 99999) / 100000
      match plan with
      | .scaleUp => .ok (some ⟨.scaleUp, units⟩, rows ++ [⟨org, 100000 * units, now⟩])
      | .startUp => .ok (some ⟨.startUp, units⟩, rows ++ [⟨org, 100000 * units, now⟩])
      | .otherPaid => .ok (none, rows)

/-- The orchestration loop of `handle_api_usage_notifications` (tasks.py
lines 206-228): per organisation, evaluate the feature flag (outside any
exception handler), then run the per-organisation step inside
`try ... except RuntimeError`.  Returns the organisations whose step was
attempted, or the first uncaught exception. -/
def runNotificationsLoop (flagEval : Nat → Except PyError Bool)
    (step : Nat → Except PyError Unit) :
    List Nat → Except PyError (List Nat)
  | [] => .ok []
  | o :: os =>
    match flagEval o with
    | .error e => .error e
    | .ok false => runNotificationsLoop flagEval step os
    | .ok true =>
      match step o with
      | .ok _ => Except.map (fun ps => o :: ps) (runNotificationsLoop flagEval step os)
      | .error .runtimeError =>
        Except.map (fun ps => o :: ps) (runNotificationsLoop flagEval step os)
      | .error e => .error e

/-- The per-organisation attributes read by the restriction passes. -/
structure OrgState where
  id : Nat
  freePlan : Bool
  hasAccessBlock : Bool
  stopServingFlags : Bool
  blockAccessToAdmin : Bool
  gateStopServing : Bool
  gateBlockAccess : Bool
deriving DecidableEq

/-- The notification condition of the apply pass (tasks.py lines 345-353):
some notification of this organisation has `month_start < notified_at <
grace_period` and `percent_usage ≥ 100`. -/
def applyWindowBreach (rows : List NotifRow) (monthStart grace : Int)
    (orgId : Nat) : Bool :=
  rows.any fun r =>
    decide (r.org = orgId) && decide (monthStart < r.notifiedAt) &&
      decide (r.notifiedAt < grace) && decide (100 ≤ r.percent)

/-- Selection by `restrict_use_due_to_api_limit_grace_period_over` (tasks.py
lines 343-394): breach notification in the apply window, free plan, no
existing `APILimitAccessBlock`, not already fully restricted, and at least
one of the two feature gates enabled. -/
def applySelected (rows : List NotifRow) (monthStart grace : Int)
    (o : OrgState) : Bool :=
  applyWindowBreach rows monthStart grace o.id && o.freePlan &&
    !o.hasAccessBlock && !(o.stopServingFlags && o.blockAccessToAdmin) &&
    (o.gateStopServing || o.gateBlockAccess)

/-- The still-breaching condition of the lift pass (tasks.py lines 413-424):
some notification of this organisation has `notified_at > month_start` and
`percent_usage ≥ 100`. -/
def stillRestricted (rows : List NotifRow) (monthStart : Int)
    (o : OrgState) : Bool :=
  rows.any fun r =>
    decide (r.org = o.id) && decide (monthStart < r.notifiedAt) &&
      decide (100 ≤ r.percent)

/-- Selection by `unrestrict_after_api_limit_grace_period_is_stale`
(tasks.py lines 425-433): currently access-blocked organisations minus the
still-breaching set. -/
def liftSelected (rows : List NotifRow) (monthStart : Int)
    (o : OrgState) : Bool :=
  o.hasAccessBlock && !stillRestricted rows monthStart o

end OrgTasks

namespace OrgTasks

theorem matchLoop_isSome (p : Nat) (ts : List Nat) (a : Nat) :
    ∃ m, matchLoop p ts (some a) = some m := by
  induction ts generalizing a with
  | nil => exact ⟨a, rfl⟩
  | cons t ts ih =>
    by_cases h : p < t
    · exact ⟨a, by simp [matchLoop, h]⟩
    · obtain ⟨m, hm⟩ := ih t
      exact ⟨m, by simpa [matchLoop, h] using hm⟩

theorem matchLoop_sound (p : Nat) (ts : List Nat) (acc : Option Nat) (m : Nat)
    (h : matchLoop p ts acc = some m) : acc = some m ∨ (m ∈ ts ∧ m ≤ p) := by
  induction ts generalizing acc with
  | nil => exact Or.inl h
  | cons t ts ih =>
    by_cases hpt : p < t
    · simp only [matchLoop, if_pos hpt] at h
      exact Or.inl h
    · simp only [matchLoop, if_neg hpt] at h
      rcases ih (some t) h with heq | hmem
      · have : t = m := by injection heq
        subst this
        exact Or.inr ⟨List.mem_cons_self _ _, Nat.le_of_not_lt hpt⟩
      · exact Or.inr ⟨List.mem_cons_of_mem _ hmem.1, hmem.2⟩

theorem matchLoop_acc_le (p : Nat) (ts : List Nat) (a m : Nat)
    (hsorted : List.Pairwise (· ≤ ·) ts) (hbound : ∀ t ∈ ts, a ≤ t)
    (h : matchLoop p ts (some a) = some m) : a ≤ m := by
  induction ts generalizing a with
  | nil =>
    have : a = m := by injection h
    exact this.le
  | cons t ts ih =>
    by_cases hpt : p < t
    · simp only [matchLoop, if_pos hpt] at h
      have : a = m := by injection h
      exact this.le
    · simp only [matchLoop, if_neg hpt] at h
      rw [List.pairwise_cons] at hsorted
      have ht : t ≤ m := ih t hsorted.2 hsorted.1 h
      exact le_trans (hbound t (List.mem_cons_self _ _)) ht

theorem matchLoop_max (p : Nat) (ts : List Nat) (acc : Option Nat) (m : Nat)
    (hsorted : List.Pairwise (· ≤ ·) ts)
    (h : matchLoop p ts acc = some m) :
    ∀ t ∈ ts, t ≤ p → t ≤ m := by
  induction ts generalizing acc with
  | nil => intro t ht; simp at ht
  | cons t0 ts ih =>
    rw [List.pairwise_cons] at hsorted
    intro t ht htp
    by_cases hpt : p < t0
    · rcases List.mem_cons.mp ht with rfl | hmem
      · omega
      · have := hsorted.1 t hmem
        omega
    · simp only [matchLoop, if_neg hpt] at h
      rcases List.mem_cons.mp ht with rfl | hmem
      · exact matchLoop_acc_le p ts t m hsorted.2 hsorted.1 h
      · exact ih (some t0) hsorted.2 h t hmem htp

theorem matchLoop_none_all_above (p : Nat) (ts : List Nat)
    (hsorted : List.Pairwise (· ≤ ·) ts)
    (h : matchLoop p ts none = none) : ∀ t ∈ ts, p < t := by
  cases ts with
  | nil => intro t ht; simp at ht
  | cons t0 ts =>
    rw [List.pairwise_cons] at hsorted
    intro t ht
    by_cases hpt : p < t0
    · rcases List.mem_cons.mp ht with rfl | hmem
      · exact hpt
      · exact lt_of_lt_of_le hpt (hsorted.1 t hmem)
    · simp only [matchLoop, if_neg hpt] at h
      obtain ⟨m, hm⟩ := matchLoop_isSome p ts t0
      rw [hm] at h
      cases h

/-- Claim C1 (counterexample): with the spec's descending-sorted threshold
sequence `[100, 90, 75, 50]` and a truncated usage percent of 95
(usage 950 of limit 1000), the matching loop of lines 185-190 returns
`none`, although 90 is a threshold ≤ 95 — so it does not return the maximum
threshold ≤ the usage percent, and `none` is returned even though the usage
percent is not below every threshold. -/
theorem c1_descending_counterexample :
    List.Sorted (· ≥ ·) [100, 90, 75, 50] ∧
    apiUsagePercent 950 1000 = some 95 ∧
    matchedThreshold [100, 90, 75, 50] 95 = none ∧
    90 ∈ [100, 90, 75, 50] ∧ 90 ≤ 95 := by
  refine ⟨by decide, by decide, by decide, by decide, by decide⟩

/-- Claim C1 (amended): for every usage-count, positive limit, and threshold
sequence sorted in ASCENDING order, the threshold-matching step returns the
maximum threshold that is ≤ the truncated integer usage percent, or `none`
if the usage percent is below every threshold in the sequence. -/
theorem c1_threshold_matcher (thresholds : List Nat) (usage limit p : Nat)
    (hsorted : List.Sorted (· ≤ ·) thresholds)
    (hp : apiUsagePercent usage limit = some p) :
    (matchedThreshold thresholds p = none → ∀ t ∈ thresholds, p < t) ∧
    (∀ m, matchedThreshold thresholds p = some m →
      m ∈ thresholds ∧ m ≤ p ∧ ∀ t ∈ thresholds, t ≤ p → t ≤ m) := by
  constructor
  · intro h
    exact matchLoop_none_all_above p thresholds hsorted h
  · intro m hm
    rcases matchLoop_sound p thresholds none m hm with heq | hmem
    · cases heq
    · exact ⟨hmem.1, hmem.2, matchLoop_max p thresholds none m hsorted hm⟩

/-- Witness for C1's amended theorem at thresholds `[50, 75, 90, 100]`,
usage 950, limit 1000 (percent 95). -/
theorem c1_threshold_matcher_witness :
    (matchedThreshold [50, 75, 90, 100] 95 = none →
      ∀ t ∈ [50, 75, 90, 100], 95 < t) ∧
    (∀ m, matchedThreshold [50, 75, 90, 100] 95 = some m →
      m ∈ [50, 75, 90, 100] ∧ m ≤ 95 ∧
        ∀ t ∈ [50, 75, 90, 100], t ≤ 95 → t ≤ m) :=
  c1_threshold_matcher [50, 75, 90, 100] 950 1000 95 (by decide) (by decide)

end OrgTasks

namespace OrgTasks

/-- Claim C2: running the notification flow twice with identical inputs
stores exactly one notification row — when the first run sends a mail, it
appends exactly one row (the matched threshold, notified at `now`), and the
second run finds that row (its `notified_at = now` is after period-start and
its `percent_usage` equals the matched threshold) and returns without
sending or inserting. -/
theorem c2_notification_idempotent (org : Nat) (thresholds : List Nat)
    (periodStartsAt now : Int) (usage allowed : Nat)
    (rows rows2 : List NotifRow) (mail : SentMail)
    (hperiod : periodStartsAt < now)
    (h1 : handleUsageCore org thresholds periodStartsAt now usage allowed rows
      = .ok (some mail, rows2)) :
    rows2 = rows ++ [⟨org, mail.threshold, now⟩] ∧
    handleUsageCore org thresholds periodStartsAt now usage allowed rows2
      = .ok (none, rows2) := by
  unfold handleUsageCore at h1 ⊢
  cases hpct : apiUsagePercent usage allowed with
  | none => rw [hpct] at h1; simp at h1
  | some percent =>
    rw [hpct] at h1
    dsimp only at h1 ⊢
    cases hm : matchedThreshold thresholds percent with
    | none => rw [hm] at h1; simp at h1
    | some matched =>
      rw [hm] at h1
      dsimp only at h1 ⊢
      by_cases hal : alreadyNotified rows periodStartsAt matched
      · rw [if_pos hal] at h1; simp at h1
      · rw [if_neg hal] at h1
        simp only [sendApiUsageNotification, Except.ok.injEq, Prod.mk.injEq,
          Option.some.injEq] at h1
        obtain ⟨hmail, hrows⟩ := h1
        have hthr : mail.threshold = matched := by rw [← hmail]
        subst hrows
        refine ⟨by rw [hthr], ?_⟩
        have hal2 : alreadyNotified (rows ++ [⟨org, matched, now⟩])
            periodStartsAt matched = true := by
          simp only [alreadyNotified, List.any_append, List.any_cons,
            List.any_nil, Bool.or_eq_true, Bool.and_eq_true]
          right
          left
          exact ⟨by simpa using hperiod, by simp⟩
        rw [if_pos hal2]

/-- Witness for C2 at usage 950 of limit 1000 (threshold 90 matched),
period start 0, now 10, starting from an empty notification table. -/
theorem c2_notification_idempotent_witness :
    ([⟨1, 90, 10⟩] : List NotifRow)
      = [] ++ [⟨1, (⟨1, 90, true⟩ : SentMail).threshold, 10⟩] ∧
    handleUsageCore 1 [50, 75, 90, 100] 0 10 950 1000 [⟨1, 90, 10⟩]
      = .ok (none, [⟨1, 90, 10⟩]) :=
  c2_notification_idempotent 1 [50, 75, 90, 100] 0 10 950 1000 []
    [⟨1, 90, 10⟩] ⟨1, 90, true⟩ (by decide) (by rfl)

/-- Claim C3: the already-notified check is not scoped to the organisation
being processed — if any OTHER organisation has a notification row with
`notified_at` after this organisation's period start and `percent_usage` at
or above this organisation's matched threshold, the flow returns without
sending a mail and without inserting a row. -/
theorem c3_notified_check_not_org_scoped (org : Nat) (thresholds : List Nat)
    (periodStartsAt now : Int) (usage allowed : Nat) (rows : List NotifRow)
    (r : NotifRow) (t : Nat)
    (hmem : r ∈ rows) (hother : r.org ≠ org)
    (htime : periodStartsAt < r.notifiedAt)
    (hallowed : allowed ≠ 0)
    (hmatch : matchedThreshold thresholds (100 * usage / allowed) = some t)
    (hcover : t ≤ r.percent) :
    handleUsageCore org thresholds periodStartsAt now usage allowed rows
      = .ok (none, rows) := by
  have hpct : apiUsagePercent usage allowed = some (100 * usage / allowed) := by
    simp [apiUsagePercent, hallowed]
  have hal : alreadyNotified rows periodStartsAt t = true := by
    simp only [alreadyNotified, List.any_eq_true, Bool.and_eq_true,
      decide_eq_true_eq]
    exact ⟨r, hmem, htime, hcover⟩
  simp [handleUsageCore, hpct, hmatch, hal]

/-- Witness for C3: organisation 1's notification (matched threshold 90 at
usage 950 of limit 1000) is suppressed by a row belonging to
organisation 2. -/
theorem c3_notified_check_not_org_scoped_witness :
    handleUsageCore 1 [50, 75, 90, 100] 0 10 950 1000 [⟨2, 100, 3⟩]
      = .ok (none, [⟨2, 100, 3⟩]) :=
  c3_notified_check_not_org_scoped 1 [50, 75, 90, 100] 0 10 950 1000
    [⟨2, 100, 3⟩] ⟨2, 100, 3⟩ 90 (by decide) (by decide) (by decide)
    (by decide) (by decide) (by decide)

/-- Claim C10: when the allowed API call limit is zero, the usage-percent
computation of the notification flow and the 200%-grace check of the
overage biller both divide by zero and raise, instead of returning a result
or skipping the organisation. -/
theorem c10_zero_limit_raises (org : Nat) (thresholds : List Nat)
    (periodStartsAt now : Int) (usage : Nat) (rows : List NotifRow)
    (plan : Plan) (termStartsAt bnow : Int) (brows : List BillRow) :
    handleUsageCore org thresholds periodStartsAt now usage 0 rows
      = .error .zeroDivision ∧
    chargeCore org plan usage 0 termStartsAt bnow brows
      = .error .zeroDivision := by
  constructor
  · simp [handleUsageCore, apiUsagePercent]
  · simp [chargeCore]

end OrgTasks

namespace OrgTasks

theorem prevApiOverage_append (rows : List BillRow) (r : BillRow)
    (termStartsAt : Int) (h : termStartsAt ≤ r.billedAt) :
    prevApiOverage (rows ++ [r]) termStartsAt
      = prevApiOverage rows termStartsAt + r.apiOverage := by
  simp [prevApiOverage, List.filter_append, h]

theorem prevApiOverage_cons_in (r : BillRow) (rows : List BillRow)
    (termStartsAt : Int) (h : termStartsAt ≤ r.billedAt) :
    prevApiOverage (r :: rows) termStartsAt
      = r.apiOverage + prevApiOverage rows termStartsAt := by
  simp [prevApiOverage, List.filter_cons, h]

/-- Claim C4: overage billing never bills twice for the same measured
overage — if a run of the biller made a billing call (appending the rounded
overage row inside the current term), then a subsequent run with unchanged
measured usage computes an overage ≤ 0 (usage is at most the allowance plus
the previously billed overage) and makes no billing call and inserts no new
row. -/
theorem c4_no_double_billing (org : Nat) (plan : Plan) (usage allowed : Nat)
    (termStartsAt now : Int) (rows rows2 : List BillRow) (call : BillCall)
    (hterm : termStartsAt ≤ now)
    (h1 : chargeCore org plan usage allowed termStartsAt now rows
      = .ok (some call, rows2)) :
    usage ≤ allowed + prevApiOverage rows2 termStartsAt ∧
    chargeCore org plan usage allowed termStartsAt now rows2
      = .ok (none, rows2) := by
  unfold chargeCore at h1 ⊢
  by_cases h0 : allowed = 0
  · rw [if_pos h0] at h1; simp at h1
  · rw [if_neg h0] at h1
    rw [if_neg h0]
    by_cases hgr : usage < 2 * allowed
    · rw [if_pos hgr] at h1; simp at h1
    · rw [if_neg hgr] at h1
      rw [if_neg hgr]
      dsimp only at h1 ⊢
      by_cases hle : usage ≤ allowed + prevApiOverage rows termStartsAt
      · rw [if_pos hle] at h1; simp at h1
      · rw [if_neg hle] at h1
        have key : ∀ u : Nat,
            u = (usage - (allowed + prevApiOverage rows termStartsAt) + 99999)
              / 100000 →
            usage ≤ allowed +
              prevApiOverage (rows ++ [⟨org, 100000 * u, now⟩]) termStartsAt := by
          intro u hu
          rw [prevApiOverage_append rows ⟨org, 100000 * u, now⟩ termStartsAt hterm]
          dsimp only
          omega
        cases plan with
        | scaleUp =>
          simp only [Except.ok.injEq, Prod.mk.injEq, Option.some.injEq] at h1
          obtain ⟨-, hrows⟩ := h1
          subst hrows
          have hub := key _ rfl
          exact ⟨hub, by rw [if_pos hub]⟩
        | startUp =>
          simp only [Except.ok.injEq, Prod.mk.injEq, Option.some.injEq] at h1
          obtain ⟨-, hrows⟩ := h1
          subst hrows
          have hub := key _ rfl
          exact ⟨hub, by rw [if_pos hub]⟩
        | otherPaid => simp at h1

/-- Witness for C4: organisation 1 on the scale-up plan with usage 2100 and
allowance 1000 — the first run bills one 100,000-unit increment, the second
run takes no action. -/
theorem c4_no_double_billing_witness :
    2100 ≤ 1000 + prevApiOverage [⟨1, 100000, 5⟩] 0 ∧
    chargeCore 1 .scaleUp 2100 1000 0 5 [⟨1, 100000, 5⟩]
      = .ok (none, [⟨1, 100000, 5⟩]) :=
  c4_no_double_billing 1 .scaleUp 2100 1000 0 5 [] [⟨1, 100000, 5⟩]
    ⟨.scaleUp, 1⟩ (by decide) (by rfl)

/-- Claim C5: the previous-overage sum used by the overage biller is not
scoped to the organisation being billed — a row billed for another
organisation inside the term is added to the sum, raising the computed
API limit (`allowed + previous_api_overage`) and lowering (or cancelling)
the computed overage (`usage - api_limit`). -/
theorem c5_prev_overage_not_org_scoped (a : Nat) (r : BillRow)
    (rows : List BillRow) (termStartsAt : Int) (usage allowed : Nat)
    (hne : r.org ≠ a) (hin : termStartsAt ≤ r.billedAt) :
    prevApiOverage (r :: rows) termStartsAt
      = prevApiOverage rows termStartsAt + r.apiOverage ∧
    usage - (allowed + prevApiOverage (r :: rows) termStartsAt)
      ≤ usage - (allowed + prevApiOverage rows termStartsAt) := by
  have h := prevApiOverage_cons_in r rows termStartsAt hin
  omega

/-- Witness for C5: a 100,000-unit row billed for organisation 2 enters the
previous-overage sum used when billing organisation 1. -/
theorem c5_prev_overage_not_org_scoped_witness :
    prevApiOverage [⟨2, 100000, 3⟩] 0 = prevApiOverage [] 0 + 100000 ∧
    2100 - (1000 + prevApiOverage [⟨2, 100000, 3⟩] 0)
      ≤ 2100 - (1000 + prevApiOverage [] 0) :=
  c5_prev_overage_not_org_scoped 1 ⟨2, 100000, 3⟩ [] 0 2100 1000
    (by decide) (by decide)

/-- Claim C6 (counterexample): with allowance 1000 and measured usage 2100,
a single billing run records an `APIBilling` row of 100,000 units — the
cumulative recorded overage (100,000) exceeds the measured usage minus the
allowance (1100). -/
theorem c6_counterexample :
    chargeCore 1 .scaleUp 2100 1000 0 0 []
      = .ok (some ⟨.scaleUp, 1⟩, [⟨1, 100000, 0⟩]) ∧
    prevApiOverage [⟨1, 100000, 0⟩] 0 = 100000 ∧
    2100 - 1000 < 100000 :=
  ⟨by rfl, by rfl, by decide⟩

/-- Claim C6 (amended): during a billing term, the cumulative overage
recorded in `APIBilling` rows stays a multiple of 100,000 and never exceeds
the total measured usage for the term (allowance subtracted) ROUNDED UP to
the next 100,000-unit increment — it can exceed the measured overage
itself by up to one increment. -/
theorem c6_recorded_overage_bound (org : Nat) (plan : Plan)
    (usage allowed : Nat) (termStartsAt now : Int)
    (rows rows2 : List BillRow) (act : Option BillCall)
    (hnow : termStartsAt ≤ now)
    (hmod : prevApiOverage rows termStartsAt % 100000 = 0)
    (hle : prevApiOverage rows termStartsAt ≤ roundUp100k (usage - allowed))
    (h : chargeCore org plan usage allowed termStartsAt now rows
      = .ok (act, rows2)) :
    prevApiOverage rows2 termStartsAt ≤ roundUp100k (usage - allowed) ∧
    prevApiOverage rows2 termStartsAt % 100000 = 0 := by
  unfold chargeCore at h
  by_cases h0 : allowed = 0
  · rw [if_pos h0] at h; simp at h
  · rw [if_neg h0] at h
    by_cases hgr : usage < 2 * allowed
    · rw [if_pos hgr] at h
      simp only [Except.ok.injEq, Prod.mk.injEq] at h
      obtain ⟨-, hrows⟩ := h
      subst hrows
      exact ⟨hle, hmod⟩
    · rw [if_neg hgr] at h
      dsimp only at h
      by_cases hub : usage ≤ allowed + prevApiOverage rows termStartsAt
      · rw [if_pos hub] at h
        simp only [Except.ok.injEq, Prod.mk.injEq] at h
        obtain ⟨-, hrows⟩ := h
        subst hrows
        exact ⟨hle, hmod⟩
      · rw [if_neg hub] at h
        have step : ∀ u : Nat,
            u = (usage - (allowed + prevApiOverage rows termStartsAt) + 99999)
              / 100000 →
            prevApiOverage (rows ++ [⟨org, 100000 * u, now⟩]) termStartsAt
                ≤ roundUp100k (usage - allowed) ∧
              prevApiOverage (rows ++ [⟨org, 100000 * u, now⟩]) termStartsAt
                % 100000 = 0 := by
          intro u hu
          rw [prevApiOverage_append rows ⟨org, 100000 * u, now⟩ termStartsAt hnow]
          simp only [roundUp100k] at hle ⊢
          omega
        cases plan with
        | scaleUp =>
          simp only [Except.ok.injEq, Prod.mk.injEq] at h
          obtain ⟨-, hrows⟩ := h
          subst hrows
          exact step _ rfl
        | startUp =>
          simp only [Except.ok.injEq, Prod.mk.injEq] at h
          obtain ⟨-, hrows⟩ := h
          subst hrows
          exact step _ rfl
        | otherPaid =>
          simp only [Except.ok.injEq, Prod.mk.injEq] at h
          obtain ⟨-, hrows⟩ := h
          subst hrows
          exact ⟨hle, hmod⟩

/-- Witness for C6's amended bound: usage 2100, allowance 1000, empty
ledger — the recorded total is 100,000 ≤ roundUp100k 1100 = 100,000. -/
theorem c6_recorded_overage_bound_witness :
    prevApiOverage [⟨1, 100000, 0⟩] 0 ≤ roundUp100k (2100 - 1000) ∧
    prevApiOverage [⟨1, 100000, 0⟩] 0 % 100000 = 0 :=
  c6_recorded_overage_bound 1 .scaleUp 2100 1000 0 0 [] [⟨1, 100000, 0⟩]
    (some ⟨.scaleUp, 1⟩) (by decide) (by decide) (by decide) (by rfl)

end OrgTasks

namespace OrgTasks

/-- Claim C7: evaluation at the failing input.  With `now` = 2025-10-12
(month index 24309, day 12) and `current_billing_term_starts_at` =
2024-08-01 (month index 24295, day 1), 14 whole months have elapsed, but
the resolver reads only the `.months` field of the relativedelta (whole
years are dropped), advancing the billing start by 2 months instead of 14:
`period_starts_at` becomes 2024-10-01 (month index 24297), which is 12
months before `now` — not within one month of it, and not the billing
start advanced by the number of whole months elapsed. -/
theorem c7_period_resolver_failing_input :
    totalMonthsBetween ⟨24309, 12⟩ ⟨24295, 1⟩ = 14 ∧
    relativedeltaMonthsField ⟨24309, 12⟩ ⟨24295, 1⟩ = 2 ∧
    periodStartsAtPaid ⟨24309, 12⟩ ⟨24295, 1⟩ = ⟨24297, 1⟩ ∧
    periodStartsAtPaid ⟨24309, 12⟩ ⟨24295, 1⟩
      ≠ addMonths ⟨24295, 1⟩ (totalMonthsBetween ⟨24309, 12⟩ ⟨24295, 1⟩) ∧
    (24309 : Nat) - (periodStartsAtPaid ⟨24309, 12⟩ ⟨24295, 1⟩).mIdx = 12 := by
  decide

/-- Claim C8 (counterexample): a `ZeroDivisionError` raised inside the
per-organisation step for organisation 1 escapes the loop (only
`RuntimeError` is caught), so organisation 2 is never processed — even
though organisation 2's own step would have succeeded. -/
theorem c8_counterexample :
    runNotificationsLoop (fun _ => .ok true)
      (fun o => if o = 1 then .error .zeroDivision else .ok ()) [1, 2]
      = .error .zeroDivision ∧
    (fun o => if o = 1 then (.error .zeroDivision : Except PyError Unit)
      else .ok ()) 2 = .ok () := by
  exact ⟨rfl, rfl⟩

/-- Claim C8 (amended): only `RuntimeError` raised inside the
per-organisation step is logged and skipped — when every organisation's
feature flag evaluates cleanly to enabled and every per-organisation
failure is a `RuntimeError`, the loop completes, attempting every
organisation; any other exception propagates and aborts the remaining
organisations (see the counterexample). -/
theorem c8_only_runtime_error_isolated (flagEval : Nat → Except PyError Bool)
    (step : Nat → Except PyError Unit) (os : List Nat)
    (hf : ∀ o ∈ os, flagEval o = .ok true)
    (hs : ∀ o ∈ os, step o = .ok () ∨ step o = .error .runtimeError) :
    runNotificationsLoop flagEval step os = .ok os := by
  induction os with
  | nil => rfl
  | cons o os ih =>
    have hfo := hf o (List.mem_cons_self _ _)
    have hso := hs o (List.mem_cons_self _ _)
    have ih2 := ih (fun x hx => hf x (List.mem_cons_of_mem _ hx))
      (fun x hx => hs x (List.mem_cons_of_mem _ hx))
    unfold runNotificationsLoop
    rw [hfo]
    rcases hso with h | h <;> rw [h] <;> rw [ih2] <;> rfl

/-- Witness for C8's amended theorem: two organisations whose steps both
raise `RuntimeError` are both attempted and the loop completes. -/
theorem c8_only_runtime_error_isolated_witness :
    runNotificationsLoop (fun _ => .ok true)
      (fun _ => .error .runtimeError) [1, 2] = .ok [1, 2] :=
  c8_only_runtime_error_isolated (fun _ => .ok true)
    (fun _ => .error .runtimeError) [1, 2]
    (fun _ _ => rfl) (fun _ _ => Or.inr rfl)

/-- Claim C9: in a single scheduling instant over a fixed notification log
and block set, the apply and lift selections are disjoint; moreover an
organisation whose apply-window breach condition holds is in the
still-breaching set and hence never lifted, and an organisation without an
`APILimitAccessBlock` is never lifted. -/
theorem c9_apply_lift_disjoint (rows : List NotifRow) (monthStart grace : Int)
    (o : OrgState) :
    (applySelected rows monthStart grace o
      && liftSelected rows monthStart o) = false ∧
    (applyWindowBreach rows monthStart grace o.id
      && liftSelected rows monthStart o) = false ∧
    (!o.hasAccessBlock && liftSelected rows monthStart o) = false := by
  have hbr : applyWindowBreach rows monthStart grace o.id = true →
      stillRestricted rows monthStart o = true := by
    simp only [applyWindowBreach, stillRestricted, List.any_eq_true,
      Bool.and_eq_true, decide_eq_true_eq]
    rintro ⟨r, hr, ⟨⟨⟨ha, hb⟩, hc⟩, hd⟩⟩
    exact ⟨r, hr, ⟨ha, hb⟩, hd⟩
  refine ⟨?_, ?_, ?_⟩
  · cases hb : o.hasAccessBlock
    · simp [liftSelected, hb]
    · simp [applySelected, hb]
  · cases hw : applyWindowBreach rows monthStart grace o.id
    · simp
    · simp [liftSelected, hbr hw]
  · cases hb : o.hasAccessBlock <;> simp [liftSelected, hb]

end OrgTasks
